import Mathlib

/-!
# FlowGuard — verification of spec claims against the source

Shallow embedding of the FlowGuard backend (Python) pieces referenced by the
claims: the stability-score calculator (`services/stability_score.py`), the
response classifier and response sanitizer (`services/test_executor.py`), the
deterministic validation layer (`services/validation_service.py`), and the
Agent-2 failure-enrichment step (`routers/schema_routes.py` together with
`services/agent2_service.py`).

Modelling conventions:
* Python strings are `String`; `x in s` (substring test) is `strContainsSub`;
  `str.lower()/upper()` are the ASCII maps `strLower`/`strUpper` (all keys and
  reasons in play are ASCII).
* Python ints are `Int`.  The score arithmetic in `stability_score.py` is done
  on floats, but every intermediate value there is an integer-valued float in
  `[-∞, 100]` obtained by subtracting integers from `100.0`, so the float
  arithmetic is exact and `round(score, 2)` is the identity; the embedding
  therefore uses `Int`.
* A missing dict key and an explicit `None` both become `none` where the code
  treats them alike (`result.get('failure_reason', '') or ''`).
-/

/-- Substring test on lists of characters: does `hay` contain `needle`
as a contiguous run?  (Python's `needle in hay`; the empty needle matches.) -/
def listContainsSub (needle : List Char) : List Char → Bool
  | [] => needle.isEmpty
  | c :: rest => startsWithL needle (c :: rest) || listContainsSub needle rest
where
  /-- Does the second list start with the first? -/
  startsWithL : List Char → List Char → Bool
    | [], _ => true
    | _ :: _, [] => false
    | a :: as, b :: bs => a == b && startsWithL as bs

/-- ASCII lower-casing of one character (Python's `str.lower()`; every string
in play is ASCII). -/
def asciiLower (c : Char) : Char :=
  if 'A' ≤ c ∧ c ≤ 'Z' then Char.ofNat (c.toNat + 32) else c

/-- ASCII upper-casing of one character (Python's `str.upper()`). -/
def asciiUpper (c : Char) : Char :=
  if 'a' ≤ c ∧ c ≤ 'z' then Char.ofNat (c.toNat - 32) else c

/-- Python `s.lower()`. -/
def strLower (s : String) : String := ⟨s.data.map asciiLower⟩

/-- Python `s.upper()`. -/
def strUpper (s : String) : String := ⟨s.data.map asciiUpper⟩

/-- Python's `needle in hay` on strings. -/
def strContainsSub (hay needle : String) : Bool :=
  listContainsSub needle.data hay.data

/-- Python `s.startswith(pre)`. -/
def strStarts (s pre : String) : Bool :=
  listContainsSub.startsWithL pre.data s.data

/-! ## Execution results (shape produced by `TestExecutor.execute_test_case`) -/

/-- One entry of the executor's result list, restricted to the three fields the
stability-score calculator reads: `failure_reason`, `status_code`, `result`.
`none` models both a missing key and an explicit `None`. -/
structure ExecResult where
  failure_reason : Option String
  status_code : Option Int
  result : String
deriving DecidableEq, Repr

/-! ## `services/stability_score.py` — `calculate_stability_score` -/

/-- `result.get('failure_reason', '') or ''`. -/
def reasonOf (r : ExecResult) : String := r.failure_reason.getD ""

/-- Per-result increment of `num_5xx_errors`
(`if status_code and status_code >= 500: ... elif '5xx' in reason or 'Server Error' in reason`). -/
def delta5xx (r : ExecResult) : Nat :=
  match r.status_code with
  | some c => if c ≠ 0 ∧ 500 ≤ c then 1
      else if strContainsSub (reasonOf r) "5xx" || strContainsSub (reasonOf r) "Server Error"
      then 1 else 0
  | none => if strContainsSub (reasonOf r) "5xx" || strContainsSub (reasonOf r) "Server Error"
      then 1 else 0

/-- Per-result increment of `num_invalid_success`
(`if 'Invalid success' in reason or 'bad input was accepted' in reason.lower()`). -/
def deltaInvalid (r : ExecResult) : Nat :=
  if strContainsSub (reasonOf r) "Invalid success"
      || strContainsSub (strLower (reasonOf r)) "bad input was accepted"
  then 1 else 0

/-- Per-result increment of `num_timeouts`
(`if 'timeout' in reason.lower() or result_type == 'timeout'`). -/
def deltaTimeout (r : ExecResult) : Nat :=
  if strContainsSub (strLower (reasonOf r)) "timeout" || r.result == "timeout" then 1 else 0

/-- The loop of `calculate_stability_score` accumulating `num_5xx_errors`. -/
def num5xxErrors (rs : List ExecResult) : Nat := (rs.map delta5xx).sum

/-- The loop of `calculate_stability_score` accumulating `num_invalid_success`. -/
def numInvalidSuccess (rs : List ExecResult) : Nat := (rs.map deltaInvalid).sum

/-- The loop of `calculate_stability_score` accumulating `num_timeouts`. -/
def numTimeouts (rs : List ExecResult) : Nat := (rs.map deltaTimeout).sum

/-- `calculate_stability_score(test_results)` where `all_results` and
`failures_to_analyze` are the two lists read out of the input dict.  The float
arithmetic is exact on these integer values and `round(·, 2)` is the identity,
so the result is the clamped integer. -/
def calculate_stability_score (all_results failures_to_analyze : List ExecResult) : Int :=
  let results_to_check := if all_results ≠ [] then all_results else failures_to_analyze
  let score : Int := 100 - 5 * (num5xxErrors results_to_check : Int)
      - 3 * (numInvalidSuccess results_to_check : Int)
      - 2 * (numTimeouts results_to_check : Int)
  max 0 (min 100 score)

/-! ## `services/test_executor.py` — `_analyze_response` -/

/-- The `TestResult` enum of `test_executor.py` (string values `"passed"`,
`"failed"`, `"error"`, `"timeout"`). -/
inductive TestResult where
  | passed
  | failed
  | error
  | timeout
deriving DecidableEq, Repr

/-- The two fields of a test case read by `_analyze_response`:
`test_case.get('test_type', '')` and `test_case.get('expected_failure', False)`. -/
structure TestCaseInfo where
  test_type : String
  expected_failure : Bool
deriving DecidableEq, Repr

/-- `_detects_stack_trace(response_body)`. -/
def detects_stack_trace (response_body : String) : Bool :=
  let indicators := ["Traceback", "at line", "File \"", "Exception:",
    "java.lang.", "System.Exception", "stack trace",
    "error occurred", "internal server error"]
  indicators.any fun ind => strContainsSub (strLower response_body) (strLower ind)

/-- `_analyze_response(status_code, response_body, response_time, test_case)`.
`response_time` is unused by the Python function body and is omitted. -/
def analyze_response (status_code : Int) (response_body : String)
    (test_case : TestCaseInfo) : TestResult × Option String :=
  if 500 ≤ status_code then
    (.failed, some ("5xx Server Error (" ++ toString status_code ++ ")"))
  else if test_case.expected_failure ∧ status_code < 400 then
    (.failed, some "Invalid success - bad input was accepted")
  else if detects_stack_trace response_body then
    (.failed, some "Stack trace or sensitive info leaked")
  else if test_case.test_type == "sql_injection" ∧ status_code < 400 then
    (.failed, some "SQL injection attempt succeeded")
  else if test_case.test_type == "xss" ∧ status_code < 400 then
    (.failed, some "XSS attempt succeeded")
  else
    (.passed, none)

/-! ## JSON-like Python values

Python values flowing through the validation layer and the sanitizer: the
result of `json.loads` / the Agent-1 output dict.  Objects keep insertion
order, as Python dicts do; numbers are modelled as integers (no claim in
scope depends on float payloads). -/

inductive JVal where
  | null
  | bool (b : Bool)
  | num (n : Int)
  | str (s : String)
  | arr (xs : List JVal)
  | obj (kvs : List (String × JVal))

/-! ## `services/test_executor.py` — `_sanitize_response` -/

/-- The `sensitive_keys` list of `_sanitize_response`. -/
def sensitive_keys : List String :=
  ["password", "token", "secret", "key", "authorization",
   "credit_card", "ssn", "phone", "email", "address"]

/-- `any(sensitive in key.lower() for sensitive in sensitive_keys)`. -/
def isSensitiveKey (k : String) : Bool :=
  sensitive_keys.any fun s => strContainsSub (strLower k) s

/-- The fixed redaction marker. -/
def redactedMarker : JVal := .str "***REDACTED***"

/-- `isinstance(v, (dict, list))`. -/
def isDictOrList : JVal → Bool
  | .obj _ => true
  | .arr _ => true
  | _ => false

mutual

/-- `sanitize_dict(obj)` from `_sanitize_response`: on dicts, replace the value
of every sensitive key by the marker and recurse into dict/list values of the
other keys; on lists, sanitize every item; leave scalars alone. -/
def sanitize_dict : JVal → JVal
  | .obj kvs => .obj (sanitizeEntries kvs)
  | .arr xs => .arr (sanitizeList xs)
  | v => v

/-- The `for key in list(obj.keys())` loop of `sanitize_dict`. -/
def sanitizeEntries : List (String × JVal) → List (String × JVal)
  | [] => []
  | (k, v) :: t =>
    (k, if isSensitiveKey k then redactedMarker
        else if isDictOrList v then sanitize_dict v
        else v) :: sanitizeEntries t

/-- The list comprehension `[sanitize_dict(item) for item in obj]`. -/
def sanitizeList : List JVal → List JVal
  | [] => []
  | x :: t => sanitize_dict x :: sanitizeList t

end

mutual

/-- `redactionOk j j'` says `j'` is `j` correctly redacted: identical shape
(same keys in the same order, same array lengths), the value of every
sensitive key replaced by the redaction marker, every non-sensitive dict entry
related recursively, and every scalar kept unchanged. -/
def redactionOk : JVal → JVal → Bool
  | .obj e, .obj e' => redactionOkEntries e e'
  | .arr l, .arr l' => redactionOkList l l'
  | .null, .null => true
  | .bool b, .bool b' => b == b'
  | .num n, .num n' => n == n'
  | .str s, .str s' => s == s'
  | _, _ => false

/-- Entry-wise redaction relation for dicts. -/
def redactionOkEntries : List (String × JVal) → List (String × JVal) → Bool
  | [], [] => true
  | (k, v) :: t, (k', v') :: t' =>
    k == k'
      && (if isSensitiveKey k then redactionOk redactedMarker v' else redactionOk v v')
      && redactionOkEntries t t'
  | _, _ => false

/-- Item-wise redaction relation for lists. -/
def redactionOkList : List JVal → List JVal → Bool
  | [], [] => true
  | x :: t, x' :: t' => redactionOk x x' && redactionOkList t t'
  | [], _ :: _ => false
  | _ :: _, [] => false

end

/-- For a non-sensitive entry value, the stored value of `sanitize_dict`'s
dict branch (recurse on dicts and lists, keep scalars) is `sanitize_dict v`. -/
theorem sanitizeEntries_value_eq (v : JVal) :
    (if isDictOrList v then sanitize_dict v else v) = sanitize_dict v := by
  cases v <;> simp [sanitize_dict, isDictOrList]

/-- Every `JVal` has positive size. -/
theorem jval_sizeOf_pos (j : JVal) : 0 < sizeOf j := by
  cases j <;> simp_arith

/-- `sanitize_dict`, `sanitizeEntries` and `sanitizeList` are all correct
redactions, proved jointly by strong induction on size. -/
theorem redaction_all : ∀ n : Nat,
    (∀ j : JVal, sizeOf j ≤ n → redactionOk j (sanitize_dict j) = true) ∧
    (∀ kvs : List (String × JVal), sizeOf kvs ≤ n →
      redactionOkEntries kvs (sanitizeEntries kvs) = true) ∧
    (∀ xs : List JVal, sizeOf xs ≤ n → redactionOkList xs (sanitizeList xs) = true) := by
  intro n
  induction n with
  | zero =>
    refine ⟨fun j h => ?_, fun kvs h => ?_, fun xs h => ?_⟩
    · exact absurd h (by simpa using (jval_sizeOf_pos j).ne')
    · cases kvs <;> simp_arith at h
    · cases xs <;> simp_arith at h
  | succ n ih =>
    obtain ⟨ihj, ihe, ihl⟩ := ih
    refine ⟨fun j hj => ?_, fun kvs hk => ?_, fun xs hx => ?_⟩
    · cases j with
      | null => rfl
      | bool b => simp [sanitize_dict, redactionOk]
      | num m => simp [sanitize_dict, redactionOk]
      | str s => simp [sanitize_dict, redactionOk]
      | arr xs =>
        have : sizeOf xs ≤ n := by simp_arith at hj; omega
        simpa [sanitize_dict, redactionOk] using ihl xs this
      | obj kvs =>
        have : sizeOf kvs ≤ n := by simp_arith at hj; omega
        simpa [sanitize_dict, redactionOk] using ihe kvs this
    · cases kvs with
      | nil => rfl
      | cons p t =>
        obtain ⟨k, v⟩ := p
        have hv : redactionOk v (sanitize_dict v) = true := by
          refine ihj v ?_
          simp_arith at hk; omega
        have ht : redactionOkEntries t (sanitizeEntries t) = true := by
          refine ihe t ?_
          simp_arith at hk; omega
        rcases Bool.eq_false_or_eq_true (isSensitiveKey k) with h | h
        · simp [sanitizeEntries, redactionOkEntries, h, ht, redactedMarker, redactionOk]
        · simp [sanitizeEntries, redactionOkEntries, h, ht, sanitizeEntries_value_eq, hv]
    · cases xs with
      | nil => rfl
      | cons x t =>
        have hx1 : redactionOk x (sanitize_dict x) = true := by
          refine ihj x ?_
          simp_arith at hx; omega
        have ht : redactionOkList t (sanitizeList t) = true := by
          refine ihl t ?_
          simp_arith at hx; omega
        simp [sanitizeList, redactionOkList, hx1, ht]

/-! ## Claim C1 — counter exclusivity in the score calculator -/

/-- A result as produced by the executor for a 503 response whose request also
timed out per its failure text: `status_code = 503`, `failure_reason`
mentioning "timeout". -/
def resultBoth503Timeout : ExecResult :=
  { failure_reason := some "Request timeout", status_code := some 503, result := "failed" }

/-- C1 (counterexample).  The claim says a result with `statusCode ≥ 500` whose
`failureReason` mentions "timeout" increments only the 5xx counter, so a list
holding just that result would score `100 - 5 = 95`.  On the code the result
increments both the 5xx counter and the timeout counter, and the score is
`100 - 5 - 2 = 93`. -/
theorem c1_counter_not_exclusive :
    delta5xx resultBoth503Timeout = 1 ∧ deltaTimeout resultBoth503Timeout = 1 ∧
      delta5xx resultBoth503Timeout + deltaInvalid resultBoth503Timeout +
        deltaTimeout resultBoth503Timeout = 2 ∧
      calculate_stability_score [resultBoth503Timeout] [] = 93 ∧ (93 : Int) ≠ 95 := by
  refine ⟨by decide, by decide, by decide, by decide, by decide⟩

/-- C1 (amended): each single counter is incremented at most once per result —
inside the 5xx counter the `statusCode ≥ 500` test takes precedence over the
reason-string test — but the three counters are evaluated independently, so a
result with `statusCode ≥ 500` whose `failureReason` mentions "timeout"
increments both the 5xx counter and the timeout counter. -/
theorem c1_each_counter_at_most_once (r : ExecResult) :
    delta5xx r ≤ 1 ∧ deltaInvalid r ≤ 1 ∧ deltaTimeout r ≤ 1 ∧
      (∀ c, r.status_code = some c → 500 ≤ c →
        strContainsSub (strLower (reasonOf r)) "timeout" = true →
        delta5xx r + deltaTimeout r = 2) := by
  refine ⟨?_, ?_, ?_, ?_⟩
  · unfold delta5xx
    split
    · split
      · simp
      · split <;> simp
    · split <;> simp
  · unfold deltaInvalid
    split <;> simp
  · unfold deltaTimeout
    split <;> simp
  · intro c hc h500 htime
    have h5 : delta5xx r = 1 := by
      unfold delta5xx
      rw [hc]
      have : c ≠ 0 := by omega
      simp [this, h500]
    have ht : deltaTimeout r = 1 := by
      unfold deltaTimeout
      simp [htime]
    omega

/-- Witness for C1 (amended) at the 503-with-timeout-reason result. -/
theorem c1_each_counter_at_most_once_witness :
    delta5xx resultBoth503Timeout + deltaTimeout resultBoth503Timeout = 2 :=
  (c1_each_counter_at_most_once resultBoth503Timeout).2.2.2 503 rfl (by decide) (by decide)

/-! ## Claim C2 — score formula, 85-point example, clamping at 0 -/

/-- C2: the score is the clamped integer formula over the counted list (the
`all_results` list, falling back to `failures_to_analyze` when empty); counts
(2, 1, 1) give exactly 85; 25 or more 5xx-classified results give exactly 0;
the score is never negative. -/
theorem c2_score_formula (all_results failures_to_analyze : List ExecResult) :
    (calculate_stability_score all_results failures_to_analyze =
      max 0 (min 100 (100
        - 5 * (num5xxErrors (if all_results ≠ [] then all_results else failures_to_analyze) : Int)
        - 3 * (numInvalidSuccess (if all_results ≠ [] then all_results else failures_to_analyze) : Int)
        - 2 * (numTimeouts (if all_results ≠ [] then all_results else failures_to_analyze) : Int)))) ∧
    (num5xxErrors (if all_results ≠ [] then all_results else failures_to_analyze) = 2 →
      numInvalidSuccess (if all_results ≠ [] then all_results else failures_to_analyze) = 1 →
      numTimeouts (if all_results ≠ [] then all_results else failures_to_analyze) = 1 →
      calculate_stability_score all_results failures_to_analyze = 85) ∧
    (25 ≤ num5xxErrors (if all_results ≠ [] then all_results else failures_to_analyze) →
      calculate_stability_score all_results failures_to_analyze = 0) ∧
    0 ≤ calculate_stability_score all_results failures_to_analyze := by
  refine ⟨rfl, ?_, ?_, ?_⟩
  · intro h5 hi ht
    simp only [calculate_stability_score, h5, hi, ht]
    rfl
  · intro h25
    simp only [calculate_stability_score]
    have : (100 : Int) - 5 * (num5xxErrors (if all_results ≠ [] then all_results else failures_to_analyze) : Int)
        - 3 * (numInvalidSuccess (if all_results ≠ [] then all_results else failures_to_analyze) : Int)
        - 2 * (numTimeouts (if all_results ≠ [] then all_results else failures_to_analyze) : Int) ≤ 0 := by
      have h5c : (25 : Int) ≤ (num5xxErrors (if all_results ≠ [] then all_results else failures_to_analyze) : Int) := by
        exact_mod_cast h25
      have hi : (0 : Int) ≤ (numInvalidSuccess (if all_results ≠ [] then all_results else failures_to_analyze) : Int) := by positivity
      have ht : (0 : Int) ≤ (numTimeouts (if all_results ≠ [] then all_results else failures_to_analyze) : Int) := by positivity
      omega
    omega
  · simp only [calculate_stability_score]
    omega

/-- A result counted only by the 5xx counter. -/
def result5xxOnly : ExecResult :=
  { failure_reason := none, status_code := some 500, result := "failed" }

/-- A result counted only by the invalid-success counter. -/
def resultInvalidOnly : ExecResult :=
  { failure_reason := some "Invalid success - bad input was accepted",
    status_code := some 200, result := "failed" }

/-- A result counted only by the timeout counter. -/
def resultTimeoutOnly : ExecResult :=
  { failure_reason := some "Request timeout", status_code := none, result := "timeout" }

/-- A passed result counted by no counter. -/
def resultPassed : ExecResult :=
  { failure_reason := none, status_code := some 200, result := "passed" }

/-- Witness for C2: a run with counts (2, 1, 1) plus a passed result scores
exactly 85, and a run of 25 5xx results scores exactly 0. -/
theorem c2_score_formula_witness :
    calculate_stability_score
      [result5xxOnly, result5xxOnly, resultInvalidOnly, resultTimeoutOnly, resultPassed] [] = 85 ∧
    calculate_stability_score (List.replicate 25 result5xxOnly) [] = 0 :=
  ⟨(c2_score_formula
      [result5xxOnly, result5xxOnly, resultInvalidOnly, resultTimeoutOnly, resultPassed] []).2.1
      (by decide) (by decide) (by decide),
   (c2_score_formula (List.replicate 25 result5xxOnly) []).2.2.1 (by decide)⟩

/-! ## Claim C4 — 5xx rule precedence in `_analyze_response` -/

/-- C4: a 503 response on a test with `expected_failure = true` classifies by
rule 1 as a 5xx failure with reason `"5xx Server Error (503)"`, never as an
invalid success: the 5xx rule precedes every later rule, whatever the response
body or the test type. -/
theorem c4_5xx_rule_precedes (response_body : String) (tc : TestCaseInfo)
    (hexp : tc.expected_failure = true) :
    analyze_response 503 response_body tc =
      (.failed, some "5xx Server Error (503)") := by
  unfold analyze_response
  norm_num
  rfl

/-- Witness for C4 at a concrete expected-failure test case. -/
theorem c4_5xx_rule_precedes_witness :
    analyze_response 503 "{}" { test_type := "sql_injection", expected_failure := true } =
      (.failed, some "5xx Server Error (503)") :=
  c4_5xx_rule_precedes "{}" { test_type := "sql_injection", expected_failure := true } rfl

/-! ## Claim C7 — the sanitizer redacts every sensitive key and preserves structure -/

/-- C7: for every parsed response body, `sanitize_dict` replaces the value of
every key (at any nesting depth, including inside lists) whose name
case-insensitively contains a sensitive keyword with the fixed redaction
marker, keeps every non-sensitive scalar value, and preserves the overall
structure — as captured by the `redactionOk` relation. -/
theorem c7_sanitizer_redacts (j : JVal) : redactionOk j (sanitize_dict j) = true :=
  (redaction_all (sizeOf j)).1 j le_rfl

/-! ## `services/validation_service.py` — the deterministic validation layer

The Agent-1 output dict is a `List (String × JVal)` (insertion-ordered, keys
unique as in a Python dict).  Python exceptions (`.upper()` on a non-string,
`.get` on a non-dict, iterating or hashing an unsuitable value) are modelled
by returning `none`.  Python's cross-type `==` (e.g. `True == 1`) is modelled
as structural inequality; no claim in scope compares a bool with an int. -/

/-- `k in d` on a Python dict. -/
def containsKey (d : List (String × JVal)) (k : String) : Bool :=
  d.any fun p => p.1 == k

/-- `d.get(k)` on a Python dict (`None` for a missing key is `none`). -/
def dictGet (d : List (String × JVal)) (k : String) : Option JVal :=
  List.lookup k d

/-- Python truthiness of a value. -/
def truthy : JVal → Bool
  | .null => false
  | .bool b => b
  | .num n => n != 0
  | .str s => !s.isEmpty
  | .arr xs => !xs.isEmpty
  | .obj kvs => !kvs.isEmpty

mutual

/-- Python `repr` of a value (string payloads in play contain no quotes or
escapes, so `repr` of a string is modelled as wrapping in single quotes). -/
def pyRepr : JVal → String
  | .null => "None"
  | .bool true => "True"
  | .bool false => "False"
  | .num n => toString n
  | .str s => "'" ++ s ++ "'"
  | .arr xs => "[" ++ pyReprList xs ++ "]"
  | .obj kvs => "\x7b" ++ pyReprEntries kvs ++ "\x7d"

/-- Comma-joined `repr`s of list items. -/
def pyReprList : List JVal → String
  | [] => ""
  | [x] => pyRepr x
  | x :: t => pyRepr x ++ ", " ++ pyReprList t

/-- Comma-joined `repr`s of dict entries. -/
def pyReprEntries : List (String × JVal) → String
  | [] => ""
  | [(k, v)] => "'" ++ k ++ "': " ++ pyRepr v
  | (k, v) :: t => "'" ++ k ++ "': " ++ pyRepr v ++ ", " ++ pyReprEntries t

end

/-- Python `str()` of a value. -/
def pyStr : JVal → String
  | .str s => s
  | v => pyRepr v

/-- Python `str()` of a `d.get(k)` result (`str(None) = "None"`). -/
def pyStrOpt : Option JVal → String
  | none => "None"
  | some v => pyStr v

/-- `value == "<s>"` for a Python value of any type (only an equal string
compares equal to a string). -/
def isStr (v : Option JVal) (s : String) : Bool :=
  match v with
  | some (.str t) => t == s
  | _ => false

/-- Python `==` between two set-hashable scalars. -/
def jScalarEq : JVal → JVal → Bool
  | .null, .null => true
  | .bool a, .bool b => a == b
  | .num a, .num b => a == b
  | .str a, .str b => a == b
  | _, _ => false

/-- Is the value hashable (usable as a set member)? -/
def scalarHashable : JVal → Bool
  | .obj _ => false
  | .arr _ => false
  | _ => true

/-- `for x in v`: the element sequence of a Python value, `none` when the
value is not iterable (`TypeError`).  Iterating a string yields its characters
as 1-character strings; iterating a dict yields its keys. -/
def iterElems : JVal → Option (List JVal)
  | .arr xs => some xs
  | .str s => some (s.data.map fun c => .str (String.singleton c))
  | .obj kvs => some (kvs.map fun p => .str p.1)
  | _ => none

/-- The `HTTPMethod` enum values of `validation_service.py`. -/
def httpMethods : List String :=
  ["GET", "POST", "PUT", "DELETE", "PATCH", "HEAD", "OPTIONS"]

/-- The `valid_test_types` list of `validate_agent1_output`. -/
def valid_test_types : List String :=
  ["missing_field", "wrong_type", "boundary_values",
   "malformed_json", "sql_injection", "xss",
   "rate_limit", "auth_bypass", "timeout", "invalid_auth"]

/-- The `required_fields` list of `validate_agent1_output`. -/
def required_fields : List String :=
  ["status", "normalized_schema", "test_cases", "errors"]

/-- Rule 1 of `validate_agent1_output`: one message per missing required
field, in declaration order. -/
def missingFieldErrors (agent_output : List (String × JVal)) : List String :=
  required_fields.filterMap fun f =>
    if containsKey agent_output f then none
    else some ("Missing required field: " ++ f)

/-- Rule 2, one endpoint dict: endpoint-path checks, method checks (with the
in-place `.upper()` normalisation), and the `request_body` requirement for
POST/PUT/PATCH.  `none` models the `AttributeError` from `.upper()` on a
non-string `method`. -/
def schemaElemErrs (idx : Nat) : JVal → Option (List String)
  | .obj d =>
    let epErrs : List String :=
      if !containsKey d "endpoint" then
        ["Endpoint at index " ++ toString idx ++ " missing 'endpoint'"]
      else match dictGet d "endpoint" with
        | some (.str p) =>
          if strStarts p "/" then []
          else ["Endpoint path must start with '/': " ++ p]
        | _ => ["Endpoint path must be string at index " ++ toString idx]
    if !containsKey d "method" then
      some (epErrs ++ ["Endpoint at index " ++ toString idx ++ " missing 'method'"])
    else match dictGet d "method" with
      | some (.str m) =>
        let mu := strUpper m
        let mErrs := if httpMethods.contains mu then []
          else ["Invalid HTTP method at index " ++ toString idx ++ ": " ++ mu]
        let rbErrs := if ["POST", "PUT", "PATCH"].contains mu && !containsKey d "request_body"
          then ["Endpoint " ++ pyStrOpt (dictGet d "endpoint") ++ " (" ++ mu
            ++ ") missing 'request_body'"]
          else []
        some (epErrs ++ mErrs ++ rbErrs)
      | _ => none
  | _ => some ["Endpoint at index " ++ toString idx ++ " must be a dictionary"]

/-- The rule-2 loop over `normalized_schema`. -/
def schemaListErrs (idx : Nat) : List JVal → Option (List String)
  | [] => some []
  | e :: t => do
    let a ← schemaElemErrs idx e
    let b ← schemaListErrs (idx + 1) t
    pure (a ++ b)

/-- Rule 3, one test case: required-field messages, `test_type` whitelist,
and method checks.  `none` models the `AttributeError` from `.upper()` on a
non-string `method`. -/
def testElemErrs (idx : Nat) : JVal → Option (List String)
  | .obj d =>
    let fieldErrs : List String :=
      ["endpoint", "method", "test_type", "expected_failure"].filterMap fun f =>
        if containsKey d f then none
        else some ("Test case at index " ++ toString idx ++ " missing '" ++ f ++ "'")
    let ttErrs : List String :=
      if containsKey d "test_type" then
        match dictGet d "test_type" with
        | some (.str t) =>
          if valid_test_types.contains t then []
          else ["Invalid test_type at index " ++ toString idx ++ ": " ++ t]
        | some v => ["Invalid test_type at index " ++ toString idx ++ ": " ++ pyStr v]
        | none => []
      else []
    if !containsKey d "method" then some (fieldErrs ++ ttErrs)
    else match dictGet d "method" with
      | some (.str m) =>
        let mu := strUpper m
        some (fieldErrs ++ ttErrs ++
          (if httpMethods.contains mu then []
           else ["Invalid HTTP method in test case " ++ toString idx ++ ": " ++ mu]))
      | _ => none
  | _ => some ["Test case at index " ++ toString idx ++ " must be a dictionary"]

/-- The rule-3 loop over `test_cases`. -/
def testListErrs (idx : Nat) : List JVal → Option (List String)
  | [] => some []
  | e :: t => do
    let a ← testElemErrs idx e
    let b ← testListErrs (idx + 1) t
    pure (a ++ b)

/-- Rule 4, first loop: `schema_endpoints = set()` plus
`if 'endpoint' in endpoint: schema_endpoints.add(endpoint['endpoint'])`.
`none` models `TypeError`s: membership test on a non-container element,
string/list indexing with a string key, and `set.add` of an unhashable
value. -/
def collectSchemaEndpoints : List JVal → Option (List JVal)
  | [] => some []
  | e :: t =>
    match e with
    | .obj d =>
      if containsKey d "endpoint" then
        match dictGet d "endpoint" with
        | some v =>
          if scalarHashable v then do
            let rest ← collectSchemaEndpoints t
            pure (v :: rest)
          else none
        | none => none
      else collectSchemaEndpoints t
    | .str s => if strContainsSub s "endpoint" then none else collectSchemaEndpoints t
    | .arr xs =>
      if xs.any (fun x => jScalarEq x (.str "endpoint")) then none
      else collectSchemaEndpoints t
    | _ => none

/-- Rule 4, second loop: flag every test case whose truthy `endpoint` is
absent from the schema-endpoint set.  `none` models the `AttributeError` from
`.get` on a non-dict and the `TypeError` from the set-membership test on an
unhashable value. -/
def hallucinationErrs (sEps : List JVal) (idx : Nat) : List JVal → Option (List String)
  | [] => some []
  | t :: rest =>
    match t with
    | .obj d =>
      let te := (dictGet d "endpoint").getD (.str "")
      if truthy te then
        if scalarHashable te then do
          let more ← hallucinationErrs sEps (idx + 1) rest
          pure ((if sEps.any (jScalarEq te) then []
            else ["Test case " ++ toString idx ++ " references non-existent endpoint: "
              ++ pyStr te]) ++ more)
        else none
      else hallucinationErrs sEps (idx + 1) rest
    | _ => none

/-- Rule 4 as a whole: runs only when both `normalized_schema` and
`test_cases` are truthy. -/
def step4Errs (ns tc : JVal) : Option (List String) :=
  if truthy ns && truthy tc then do
    let elemsS ← iterElems ns
    let sEps ← collectSchemaEndpoints elemsS
    let elemsT ← iterElems tc
    hallucinationErrs sEps 0 elemsT
  else some []

/-- Rule 2 as a whole: list check, emptiness check, then the per-endpoint
loop. -/
def stepSchemaErrs : JVal → Option (List String)
  | .arr [] => some ["normalized_schema cannot be empty"]
  | .arr es => schemaListErrs 0 es
  | _ => some ["normalized_schema must be a list"]

/-- Rule 3 as a whole: list check, emptiness check, then the per-test-case
loop. -/
def stepTestErrs : JVal → Option (List String)
  | .arr [] => some ["test_cases cannot be empty"]
  | .arr ts => testListErrs 0 ts
  | _ => some ["test_cases must be a list"]

/-- Rule 5: the `errors` field must be a list. -/
def errorsFieldErrs (agent_output : List (String × JVal)) : List String :=
  match (dictGet agent_output "errors").getD (.arr []) with
  | .arr _ => []
  | _ => ["errors field must be a list"]

/-- `ValidationService.validate_agent1_output(agent_output, base_url)`.
Returns `some (is_valid, errors)`, or `none` when the Python function would
raise.  Note that the `base_url` parameter is never read by the function
body. -/
def validate_agent1_output (agent_output : List (String × JVal)) (base_url : String) :
    Option (Bool × List String) :=
  let errs1 := missingFieldErrors agent_output
  if isStr (dictGet agent_output "status") "reject" then
    some (false, if errs1.isEmpty then ["Schema rejected by AI"] else errs1)
  else
    let statusErrs := if isStr (dictGet agent_output "status") "ok" then []
      else ["Invalid status: " ++ pyStrOpt (dictGet agent_output "status") ++ ". Expected 'ok'"]
    let ns := (dictGet agent_output "normalized_schema").getD (.arr [])
    let tc := (dictGet agent_output "test_cases").getD (.arr [])
    do
      let schemaErrs ← stepSchemaErrs ns
      let testErrs ← stepTestErrs tc
      let hallErrs ← step4Errs ns tc
      let errs := errs1 ++ statusErrs ++ schemaErrs ++ testErrs ++ hallErrs
        ++ errorsFieldErrs agent_output
      pure (errs.isEmpty, errs)

/-! ## `services/validation_service.py` — `validate_base_url` -/

/-- One character of the regex class `[a-zA-Z0-9.-]`. -/
def hostChar (c : Char) : Bool :=
  ('a' ≤ c && c ≤ 'z') || ('A' ≤ c && c ≤ 'Z') || ('0' ≤ c && c ≤ '9')
    || c == '.' || c == '-'

/-- One character of the regex class `\d` (ASCII digits; every base URL in
play is ASCII). -/
def isDigitChar (c : Char) : Bool := '0' ≤ c && c ≤ '9'

/-- No newline anywhere (`.` in the regex never matches a newline). -/
def noNewline (l : List Char) : Bool := l.all (· != '\n')

/-- `.*$`: the rest of the input, with `$` also matching just before a single
trailing newline (Python `re` semantics). -/
def dotStarDollar (l : List Char) : Bool :=
  noNewline l || (l.getLast? == some '\n' && noNewline l.dropLast)

/-- The regex tail `(?::\d+)?(?:/.*)?$` after the host. -/
def afterHost : List Char → Bool
  | [] => true
  | ':' :: rest =>
    let ds := rest.takeWhile isDigitChar
    let rest2 := rest.drop ds.length
    !ds.isEmpty &&
      (match rest2 with
       | [] => true
       | ['\n'] => true
       | '/' :: r => dotStarDollar r
       | _ => false)
  | ['\n'] => true
  | '/' :: r => dotStarDollar r
  | _ => false

/-- `[a-zA-Z0-9.-]+(?::\d+)?(?:/.*)?$` (the host class is disjoint from
`:`, `/` and newline, so maximal munch is exact). -/
def matchHostAndAfter (cs : List Char) : Bool :=
  let h := cs.takeWhile hostChar
  !h.isEmpty && afterHost (cs.drop h.length)

/-- Python `s.rstrip('/')`. -/
def rstripSlashes (s : String) : String :=
  ⟨(s.data.reverse.dropWhile (· == '/')).reverse⟩

/-- `ValidationService.validate_base_url(base_url)`: falsy check, strip
trailing slashes, then `re.match(r'^https?://[a-zA-Z0-9.-]+(?::\d+)?(?:/.*)?$', ·)`. -/
def validate_base_url (base_url : String) : Bool :=
  if base_url == "" then false
  else
    let cs := (rstripSlashes base_url).data
    if listContainsSub.startsWithL "http://".data cs then matchHostAndAfter (cs.drop 7)
    else if listContainsSub.startsWithL "https://".data cs then matchHostAndAfter (cs.drop 8)
    else false

/-! ## Claim C3 — early return happens only for status = "reject" -/

/-- A raw plan whose status is present but neither `"ok"` nor `"reject"`, with
an empty `normalized_schema`. -/
def pendingPlan : List (String × JVal) :=
  [("status", .str "pending"), ("normalized_schema", .arr []),
   ("test_cases", .arr [.obj [("endpoint", .str "/a"), ("method", .str "GET"),
     ("test_type", .str "xss"), ("expected_failure", .bool false)]]),
   ("errors", .arr [])]

/-- C3 (counterexample).  The claim says any present status ≠ "ok" rejects
immediately with no further checks, so no schema-structure message could
appear.  On the code, status `"pending"` adds an invalid-status error and
validation continues: the schema-structure message
`"normalized_schema cannot be empty"` appears in the returned list. -/
theorem c3_pending_status_still_checks :
    validate_agent1_output pendingPlan "http://api.example.com" =
      some (false, ["Invalid status: pending. Expected 'ok'",
        "normalized_schema cannot be empty"]) ∧
    "normalized_schema cannot be empty" ∈
      ["Invalid status: pending. Expected 'ok'", "normalized_schema cannot be empty"] := by
  refine ⟨by decide, by decide⟩

/-- C3 (amended): only `status == "reject"` short-circuits.  In that case the
gate returns invalid immediately with the accumulated missing-required-field
errors, or the default `"Schema rejected by AI"` when there are none, and no
other check contributes an error. -/
theorem c3_reject_short_circuits (ao : List (String × JVal)) (b : String)
    (h : dictGet ao "status" = some (.str "reject")) :
    validate_agent1_output ao b =
      some (false,
        if (missingFieldErrors ao).isEmpty then ["Schema rejected by AI"]
        else missingFieldErrors ao) := by
  unfold validate_agent1_output
  rw [h]
  simp [isStr]

/-- A raw plan rejected by the AI with all required fields present. -/
def rejectPlan : List (String × JVal) :=
  [("status", .str "reject"), ("normalized_schema", .arr []), ("test_cases", .arr []),
   ("errors", .arr [.str "bad schema"])]

/-- Witness for C3 (amended) at a concrete rejected plan. -/
theorem c3_reject_short_circuits_witness :
    validate_agent1_output rejectPlan "http://api.example.com" =
      some (false, ["Schema rejected by AI"]) :=
  (c3_reject_short_circuits rejectPlan "http://api.example.com" rfl).trans (by decide)

/-! ## Claim C6 — the gate never checks the base URL -/

/-- A raw plan the validation layer fully accepts. -/
def validPlan : List (String × JVal) :=
  [("status", .str "ok"),
   ("normalized_schema", .arr [.obj [("endpoint", .str "/users"), ("method", .str "GET")]]),
   ("test_cases", .arr [.obj [("endpoint", .str "/users"), ("method", .str "GET"),
     ("test_type", .str "xss"), ("expected_failure", .bool false)]]),
   ("errors", .arr [])]

/-- C6 (counterexample).  `"ftp://example.com"` has a non-http(s) scheme —
`validate_base_url` itself returns `false` on it — yet the validation gate
`validate_agent1_output` accepts the plan with an empty error list instead of
rejecting with a baseUrl error. -/
theorem c6_bad_scheme_accepted :
    validate_base_url "ftp://example.com" = false ∧
    validate_agent1_output validPlan "ftp://example.com" = some (true, []) := by
  refine ⟨by decide, by decide⟩

/-- `startsWithL` is the list-IsPrefixOf test. -/
theorem startsWithL_iff (needle : List Char) :
    ∀ hay, listContainsSub.startsWithL needle hay = true ↔ needle <+: hay := by
  induction needle with
  | nil =>
    intro hay
    simp [listContainsSub.startsWithL]
  | cons a as ih =>
    intro hay
    cases hay with
    | nil => simp [listContainsSub.startsWithL]
    | cons b bs =>
      simp only [listContainsSub.startsWithL, Bool.and_eq_true, beq_iff_eq, ih bs,
        List.cons_prefix_cons]

/-- C6 (amended): the gate ignores its `baseUrl` argument entirely — it
returns identical results for any two base URLs — and the scheme restriction
lives only in the never-invoked helper `validate_base_url`, which indeed
returns `false` whenever the trailing-slash-stripped URL does not start with
`http://` or `https://`. -/
theorem c6_base_url_ignored :
    (∀ (ao : List (String × JVal)) (b1 b2 : String),
      validate_agent1_output ao b1 = validate_agent1_output ao b2) ∧
    (∀ s : String,
      ¬("http://".data <+: (rstripSlashes s).data ∨
        "https://".data <+: (rstripSlashes s).data) →
      validate_base_url s = false) := by
  constructor
  · intro ao b1 b2
    rfl
  · intro s hs
    push_neg at hs
    obtain ⟨hs1, hs2⟩ := hs
    have h1 : listContainsSub.startsWithL "http://".data (rstripSlashes s).data = false := by
      rw [Bool.eq_false_iff]
      intro hh
      exact hs1 ((startsWithL_iff _ _).mp hh)
    have h2 : listContainsSub.startsWithL "https://".data (rstripSlashes s).data = false := by
      rw [Bool.eq_false_iff]
      intro hh
      exact hs2 ((startsWithL_iff _ _).mp hh)
    simp [validate_base_url, h1, h2]

/-- Witness for C6 (amended): applied to the concrete plan and to the
`ftp://` URL. -/
theorem c6_base_url_ignored_witness :
    validate_agent1_output validPlan "ftp://example.com" =
      validate_agent1_output validPlan "https://api.example.com" ∧
    validate_base_url "ftp://example.com" = false :=
  ⟨c6_base_url_ignored.1 validPlan "ftp://example.com" "https://api.example.com",
   c6_base_url_ignored.2 "ftp://example.com" (by decide)⟩

/-! ## Claim C5 — hallucinated endpoints -/

/-- A raw plan whose single test case carries the empty-string endpoint, which
does not equal any schema endpoint path. -/
def emptyEndpointPlan : List (String × JVal) :=
  [("status", .str "ok"),
   ("normalized_schema", .arr [.obj [("endpoint", .str "/users"), ("method", .str "GET")]]),
   ("test_cases", .arr [.obj [("endpoint", .str ""), ("method", .str "GET"),
     ("test_type", .str "xss"), ("expected_failure", .bool false)]]),
   ("errors", .arr [])]

/-- C5 (counterexample).  The test case's endpoint `""` equals no endpoint
listed in `normalized_schema` (the only one is `"/users"`), yet the gate
returns `is_valid = true` with an empty error list: the falsy endpoint is
skipped by the hallucination check. -/
theorem c5_empty_endpoint_escapes :
    ("" : String) ≠ "/users" ∧
    validate_agent1_output emptyEndpointPlan "http://api.example.com" = some (true, []) := by
  refine ⟨by decide, by decide⟩

/-- The rule-4 loop flags every dict test case whose endpoint is a non-empty
string absent from the collected endpoint set, whenever the loop finishes
without raising. -/
theorem hallucinationErrs_flags (sEps : List JVal) :
    ∀ (ts : List JVal) (idx i : Nat) (d : List (String × JVal)) (e : String)
      (r : List String),
      ts.get? i = some (.obj d) →
      dictGet d "endpoint" = some (.str e) →
      e ≠ "" →
      sEps.any (jScalarEq (.str e)) = false →
      hallucinationErrs sEps idx ts = some r →
      ("Test case " ++ toString (idx + i) ++ " references non-existent endpoint: " ++ e)
        ∈ r := by
  intro ts
  induction ts with
  | nil =>
    intro idx i d e r hget
    simp at hget
  | cons t rest ih =>
    intro idx i d e r hget hep hne hmem hrun
    cases i with
    | zero =>
      simp only [List.get?] at hget
      injection hget with hget
      subst hget
      have hemp : e.isEmpty = false := by
        rw [Bool.eq_false_iff]
        intro hh
        exact hne ((String.isEmpty_iff e).mp hh)
      simp only [hallucinationErrs, hep, Option.getD_some, truthy, hemp,
        Bool.not_false, if_true, scalarHashable, hmem] at hrun
      obtain ⟨more, hmore, heq⟩ := Option.bind_eq_some.mp hrun
      injection heq with heq
      subst heq
      simp [pyStr]
    | succ i' =>
      simp only [List.get?] at hget
      cases t with
      | obj d' =>
        simp only [hallucinationErrs] at hrun
        split at hrun
        · split at hrun
          · obtain ⟨more, hmore, heq⟩ := Option.bind_eq_some.mp hrun
            injection heq with heq
            subst heq
            have hmm := ih (idx + 1) i' d e more hget hep hne hmem hmore
            have hidx : idx + 1 + i' = idx + (i' + 1) := by omega
            rw [hidx] at hmm
            exact List.mem_append_right _ hmm
          · exact absurd hrun (by simp)
        · have hmm := ih (idx + 1) i' d e r hget hep hne hmem hrun
          have hidx : idx + 1 + i' = idx + (i' + 1) := by omega
          rw [hidx] at hmm
          exact hmm
      | null => exact absurd hrun (by simp [hallucinationErrs])
      | bool bb => exact absurd hrun (by simp [hallucinationErrs])
      | num nn => exact absurd hrun (by simp [hallucinationErrs])
      | str ss => exact absurd hrun (by simp [hallucinationErrs])
      | arr xs => exact absurd hrun (by simp [hallucinationErrs])

/-- C5 (amended): whenever the gate runs to completion (no Python exception),
the status is not "reject", `normalized_schema` is a non-empty list, and some
test case is a dict whose `endpoint` is a **non-empty** string equal to no
member of the collected schema-endpoint set, the gate returns
`is_valid = false` and the error list names that endpoint (a test case whose
endpoint is the falsy `""` is skipped, as the counterexample shows). -/
theorem c5_hallucinated_endpoint_rejected
    (ao : List (String × JVal)) (b : String) (es ts : List JVal) (i : Nat)
    (d : List (String × JVal)) (e : String) (res : Bool × List String)
    (hst : isStr (dictGet ao "status") "reject" = false)
    (hns : dictGet ao "normalized_schema" = some (.arr es))
    (htc : dictGet ao "test_cases" = some (.arr ts))
    (hnse : es ≠ [])
    (hti : ts.get? i = some (.obj d))
    (hep : dictGet d "endpoint" = some (.str e))
    (hne : e ≠ "")
    (hmem : ∀ sEps, collectSchemaEndpoints es = some sEps →
      sEps.any (jScalarEq (.str e)) = false)
    (hres : validate_agent1_output ao b = some res) :
    res.1 = false ∧
      ("Test case " ++ toString i ++ " references non-existent endpoint: " ++ e)
        ∈ res.2 := by
  obtain ⟨e1, es', rfl⟩ : ∃ x l, es = x :: l := by
    cases es with
    | nil => exact absurd rfl hnse
    | cons x l => exact ⟨x, l, rfl⟩
  obtain ⟨t1, ts', rfl⟩ : ∃ x l, ts = x :: l := by
    cases ts with
    | nil => simp at hti
    | cons x l => exact ⟨x, l, rfl⟩
  unfold validate_agent1_output at hres
  rw [hst] at hres
  simp only [Bool.false_eq_true, if_false, hns, htc, Option.getD_some] at hres
  simp only [stepSchemaErrs, stepTestErrs, step4Errs, truthy, List.isEmpty_cons,
    Bool.not_false, Bool.and_self, if_true, iterElems] at hres
  obtain ⟨se, hse, hres⟩ := Option.bind_eq_some.mp hres
  obtain ⟨te, hte, hres⟩ := Option.bind_eq_some.mp hres
  obtain ⟨hr, hhr, hres⟩ := Option.bind_eq_some.mp hres
  obtain ⟨elemsS, hElemsS, hhr⟩ := Option.bind_eq_some.mp hhr
  injection hElemsS with hElemsS
  subst hElemsS
  obtain ⟨sEps, hsE, hhr⟩ := Option.bind_eq_some.mp hhr
  obtain ⟨elemsT, hElemsT, hhall⟩ := Option.bind_eq_some.mp hhr
  injection hElemsT with hElemsT
  subst hElemsT
  injection hres with hres
  subst hres
  have hmsg := hallucinationErrs_flags sEps (t1 :: ts') 0 i d e hr hti hep hne
    (hmem sEps hsE) hhall
  rw [Nat.zero_add] at hmsg
  have hmemErrs :
      ("Test case " ++ toString i ++ " references non-existent endpoint: " ++ e)
        ∈ missingFieldErrors ao
          ++ (if isStr (dictGet ao "status") "ok" = true then []
              else ["Invalid status: " ++ pyStrOpt (dictGet ao "status") ++ ". Expected 'ok'"])
          ++ se ++ te ++ hr ++ errorsFieldErrs ao := by
    simp only [List.mem_append]
    tauto
  constructor
  · have hnonnil := List.ne_nil_of_mem hmemErrs
    simpa [List.isEmpty_iff] using hnonnil
  · exact hmemErrs

/-- A raw plan with one hallucinated (non-empty) test endpoint. -/
def ghostPlan : List (String × JVal) :=
  [("status", .str "ok"),
   ("normalized_schema", .arr [.obj [("endpoint", .str "/users"), ("method", .str "GET")]]),
   ("test_cases", .arr [.obj [("endpoint", .str "/ghost"), ("method", .str "GET"),
     ("test_type", .str "xss"), ("expected_failure", .bool false)]]),
   ("errors", .arr [])]

/-- Witness for C5 (amended) at the concrete hallucinated-endpoint plan. -/
theorem c5_hallucinated_endpoint_rejected_witness :
    ((false, ["Test case 0 references non-existent endpoint: /ghost"]) :
        Bool × List String).1 = false ∧
      ("Test case " ++ toString 0 ++ " references non-existent endpoint: " ++ "/ghost")
        ∈ ((false, ["Test case 0 references non-existent endpoint: /ghost"]) :
            Bool × List String).2 :=
  c5_hallucinated_endpoint_rejected ghostPlan "http://x"
    [.obj [("endpoint", .str "/users"), ("method", .str "GET")]]
    [.obj [("endpoint", .str "/ghost"), ("method", .str "GET"),
      ("test_type", .str "xss"), ("expected_failure", .bool false)]]
    0
    [("endpoint", .str "/ghost"), ("method", .str "GET"),
      ("test_type", .str "xss"), ("expected_failure", .bool false)]
    "/ghost"
    (false, ["Test case 0 references non-existent endpoint: /ghost"])
    rfl rfl rfl (by simp) rfl rfl (by simp)
    (by
      intro sEps h
      have h2 : some [JVal.str "/users"] = some sEps := h
      injection h2 with h2
      subst h2
      rfl)
    (by decide)

/-! ## Claim C8 — idempotent failure enrichment

State machine for `POST /test-runs/{run_id}/analyze-failures`
(`routers/schema_routes.py`) backed by
`analyze_failures_with_agent2` (`services/agent2_service.py`).  The external
Analyzer (Agent 2 / Gemini) is an oracle function from a failure row to an
analysis; the returned `Nat` counts invocations of the Analyzer collaborator
(`analyze_failures_with_agent2`'s batch call). -/

/-- A `TestFailure` DB row, restricted to the fields the enrichment step reads
and writes (`root_cause IS NULL` marks an unanalyzed failure). -/
structure TestFailureRow where
  endpoint : String
  test_type : String
  status_code : Option Int
  root_cause : Option String
  risk_level : Option String
  fix_suggestion : Option String
deriving DecidableEq, Repr

/-- The per-run state the route reads: the `agent2_called` flag on the
`TestRun` row and the run's failure rows. -/
structure RunState where
  agent2_called : Bool
  failures : List TestFailureRow
deriving DecidableEq, Repr

/-- One Analyzer result (`root_cause`, `risk_level`, `fix_suggestion`). -/
structure FailureAnalysis where
  root_cause : String
  risk_level : String
  fix_suggestion : String
deriving DecidableEq, Repr

/-- One entry of the fresh-path response: the analysis dict updated with the
failure's `endpoint`, `test_type` and `status_code`. -/
structure FreshAnalysisOut where
  endpoint : String
  test_type : String
  status_code : Option Int
  root_cause : String
  risk_level : String
  fix_suggestion : String
deriving DecidableEq, Repr

/-- One entry of the cached-path response: the stored DB fields. -/
structure AnalysisView where
  endpoint : String
  test_type : String
  root_cause : Option String
  risk_level : Option String
  fix_suggestion : Option String
deriving DecidableEq, Repr

/-- The route's possible responses. -/
inductive EnrichResponse where
  | noFailures
  | noUnanalyzed
  | cached (analyses : List AnalysisView)
  | fresh (analyses : List FreshAnalysisOut)
deriving DecidableEq, Repr

/-- The cached path's projection of a stored row. -/
def cachedView (f : TestFailureRow) : AnalysisView :=
  ⟨f.endpoint, f.test_type, f.root_cause, f.risk_level, f.fix_suggestion⟩

/-- The analysis fields carried by a fresh-path entry (dropping the extra
`status_code` key, which the cached path does not echo). -/
def freshToView (f : FreshAnalysisOut) : AnalysisView :=
  ⟨f.endpoint, f.test_type, some f.root_cause, some f.risk_level, some f.fix_suggestion⟩

/-- The analyses a response carries, projected to the stored fields. -/
def viewsOf : EnrichResponse → Option (List AnalysisView)
  | .noFailures => none
  | .noUnanalyzed => none
  | .cached a => some a
  | .fresh a => some (a.map freshToView)

/-- Storing an Analyzer result on a failure row
(`failure.root_cause = analysis.get('root_cause', '')`, …). -/
def applyAnalysis (f : TestFailureRow) (a : FailureAnalysis) : TestFailureRow :=
  ⟨f.endpoint, f.test_type, f.status_code,
   some a.root_cause, some a.risk_level, some a.fix_suggestion⟩

/-- A fresh-path response entry for one analyzed failure. -/
def freshOut (f : TestFailureRow) (a : FailureAnalysis) : FreshAnalysisOut :=
  ⟨f.endpoint, f.test_type, f.status_code, a.root_cause, a.risk_level, a.fix_suggestion⟩

/-- One invocation of the `analyze-failures` route: no-failure early return;
cached return when `agent2_called` is already set; otherwise the service call,
which analyzes exactly the rows with `root_cause IS NULL`, stores their
analyses, sets `agent2_called`, and echoes the fresh analyses. -/
def analyze_failures_step (analyzer : TestFailureRow → FailureAnalysis)
    (s : RunState) : RunState × EnrichResponse × Nat :=
  if s.failures.length = 0 then (s, .noFailures, 0)
  else if s.agent2_called then
    (s, .cached (s.failures.map cachedView), 0)
  else
    let fs := s.failures.filter fun f => f.root_cause.isNone
    if fs.isEmpty then (s, .noUnanalyzed, 0)
    else
      ({ agent2_called := true,
         failures := s.failures.map fun f =>
           if f.root_cause.isNone then applyAnalysis f (analyzer f) else f },
       .fresh (fs.map fun f => freshOut f (analyzer f)),
       1)

/-- C8: starting from a freshly executed run (flag unset, every failure
unanalyzed, at least one failure), two successive invocations call the
Analyzer exactly once in total; the second invocation sees the flag already
set, changes nothing, and returns the stored analyses — the same analysis
fields the first invocation produced. -/
theorem c8_enrichment_idempotent (analyzer : TestFailureRow → FailureAnalysis)
    (s : RunState)
    (hcalled : s.agent2_called = false)
    (hall : ∀ f ∈ s.failures, f.root_cause = none)
    (hne : s.failures ≠ []) :
    (analyze_failures_step analyzer s).2.2 = 1 ∧
    (analyze_failures_step analyzer (analyze_failures_step analyzer s).1).2.2 = 0 ∧
    (analyze_failures_step analyzer s).2.2 +
      (analyze_failures_step analyzer (analyze_failures_step analyzer s).1).2.2 ≤ 1 ∧
    (analyze_failures_step analyzer s).1.agent2_called = true ∧
    (analyze_failures_step analyzer (analyze_failures_step analyzer s).1).1 =
      (analyze_failures_step analyzer s).1 ∧
    viewsOf (analyze_failures_step analyzer (analyze_failures_step analyzer s).1).2.1 =
      viewsOf (analyze_failures_step analyzer s).2.1 := by
  have hlen : s.failures.length ≠ 0 := fun h => hne (List.eq_nil_of_length_eq_zero h)
  have hfilter : (s.failures.filter fun f => f.root_cause.isNone) = s.failures :=
    List.filter_eq_self.mpr fun f hf => by simp [hall f hf]
  have hfs : ¬(s.failures.filter fun f => f.root_cause.isNone).isEmpty = true := by
    rw [hfilter]
    simpa [List.isEmpty_iff] using hne
  have hstep1 : analyze_failures_step analyzer s =
      ({ agent2_called := true,
         failures := s.failures.map fun f =>
           if f.root_cause.isNone then applyAnalysis f (analyzer f) else f },
       .fresh ((s.failures.filter fun f => f.root_cause.isNone).map
         fun f => freshOut f (analyzer f)),
       1) := by
    unfold analyze_failures_step
    rw [if_neg hlen, hcalled]
    simp only [Bool.false_eq_true, if_false]
    rw [if_neg hfs]
  have hlen2 : (s.failures.map fun f =>
      if f.root_cause.isNone then applyAnalysis f (analyzer f) else f).length ≠ 0 := by
    simpa using hlen
  have hstep2 : analyze_failures_step analyzer (analyze_failures_step analyzer s).1 =
      ((analyze_failures_step analyzer s).1,
       .cached (((analyze_failures_step analyzer s).1).failures.map cachedView),
       0) := by
    rw [hstep1]
    unfold analyze_failures_step
    rw [if_neg hlen2]
    simp
  refine ⟨by rw [hstep1], by rw [hstep2], by rw [hstep2, hstep1]; exact Nat.le_refl 1,
    by rw [hstep1], by rw [hstep2], ?_⟩
  rw [hstep2, hstep1]
  simp only [viewsOf, hfilter, Option.some_inj, List.map_map]
  refine List.map_congr_left fun f hf => ?_
  simp [Function.comp, hall f hf, cachedView, applyAnalysis, freshOut, freshToView]

/-- A concrete failure row for the C8 witness. -/
def sampleFailure : TestFailureRow :=
  ⟨"/users", "sql_injection", some 500, none, none, none⟩

/-- A concrete Analyzer oracle for the C8 witness. -/
def sampleAnalyzer : TestFailureRow → FailureAnalysis :=
  fun _ => ⟨"Unhandled database error", "high", "Validate input before querying"⟩

/-- Witness for C8 at a one-failure run with a concrete Analyzer. -/
theorem c8_enrichment_idempotent_witness :
    (analyze_failures_step sampleAnalyzer ⟨false, [sampleFailure]⟩).2.2 = 1 ∧
    (analyze_failures_step sampleAnalyzer
      (analyze_failures_step sampleAnalyzer ⟨false, [sampleFailure]⟩).1).2.2 = 0 ∧
    (analyze_failures_step sampleAnalyzer ⟨false, [sampleFailure]⟩).2.2 +
      (analyze_failures_step sampleAnalyzer
        (analyze_failures_step sampleAnalyzer ⟨false, [sampleFailure]⟩).1).2.2 ≤ 1 ∧
    (analyze_failures_step sampleAnalyzer ⟨false, [sampleFailure]⟩).1.agent2_called = true ∧
    (analyze_failures_step sampleAnalyzer
      (analyze_failures_step sampleAnalyzer ⟨false, [sampleFailure]⟩).1).1 =
      (analyze_failures_step sampleAnalyzer ⟨false, [sampleFailure]⟩).1 ∧
    viewsOf (analyze_failures_step sampleAnalyzer
      (analyze_failures_step sampleAnalyzer ⟨false, [sampleFailure]⟩).1).2.1 =
      viewsOf (analyze_failures_step sampleAnalyzer ⟨false, [sampleFailure]⟩).2.1 :=
  c8_enrichment_idempotent sampleAnalyzer ⟨false, [sampleFailure]⟩ rfl
    (by intro f hf; simp at hf; subst hf; rfl) (by simp)

/-! ## `services/validation_service.py` — `calculate_schema_hash`

`json.dumps(schema_content, sort_keys=True)` with the default separators
`", "` / `": "` and `ensure_ascii=True`, concatenated with the base URL,
UTF-8 encoded and hashed with SHA-256 (hex digest).  The serializer sorts the
entries of every object by key at every nesting level; sorting the
`(key, rendered item)` pairs by key is the same output, since the comparator
reads only the key and Python dict keys are unique. -/

/-- One lowercase hex digit. -/
def hexDigit (n : Nat) : Char :=
  if n < 10 then Char.ofNat (48 + n) else Char.ofNat (87 + n % 16)

/-- Four hex digits (`\uXXXX`). -/
def hex4 (n : Nat) : List Char :=
  [hexDigit (n / 4096 % 16), hexDigit (n / 256 % 16), hexDigit (n / 16 % 16), hexDigit (n % 16)]

/-- JSON escaping of one character as `json.dumps` does with `ensure_ascii`:
everything outside `0x20`–`0x7e` becomes `\uXXXX` (a surrogate pair beyond
the BMP), with the usual short escapes. -/
def escapeChar (c : Char) : List Char :=
  if c = '"' then ['\\', '"']
  else if c = '\\' then ['\\', '\\']
  else if c = '\n' then ['\\', 'n']
  else if c = '\t' then ['\\', 't']
  else if c = '\r' then ['\\', 'r']
  else if c.toNat = 8 then ['\\', 'b']
  else if c.toNat = 12 then ['\\', 'f']
  else if c.toNat < 32 || 126 < c.toNat then
    if c.toNat < 65536 then '\\' :: 'u' :: hex4 c.toNat
    else ('\\' :: 'u' :: hex4 (55296 + (c.toNat - 65536) / 1024))
      ++ ('\\' :: 'u' :: hex4 (56320 + (c.toNat - 65536) % 1024))
  else [c]

/-- A JSON string literal. -/
def pyJsonQuote (s : String) : String :=
  ⟨'"' :: (s.data.map escapeChar).flatten ++ ['"']⟩

/-- The comma-space separator of `json.dumps`'s default item joining. -/
def joinComma (parts : List String) : String :=
  String.intercalate ", " parts

/-- Order on `(key, rendered item)` pairs: compare keys only (`sorted` on
dict items, which Python compares by the string key). -/
def keyLe (a b : String × String) : Bool := a.1 ≤ b.1

mutual

/-- `json.dumps(v, sort_keys=True)` (default separators, `ensure_ascii`). -/
def dumps : JVal → String
  | .null => "null"
  | .bool true => "true"
  | .bool false => "false"
  | .num n => toString n
  | .str s => pyJsonQuote s
  | .arr xs => "[" ++ joinComma (dumpsList xs) ++ "]"
  | .obj kvs =>
    "\x7b" ++ joinComma (((dumpsEntries kvs).mergeSort keyLe).map Prod.snd) ++ "\x7d"

/-- Rendered items of an array. -/
def dumpsList : List JVal → List String
  | [] => []
  | x :: t => dumps x :: dumpsList t

/-- `(key, rendered "key": value item)` pairs of an object, in insertion
order; `dumps` sorts them by key. -/
def dumpsEntries : List (String × JVal) → List (String × String)
  | [] => []
  | (k, v) :: t => (k, pyJsonQuote k ++ ": " ++ dumps v) :: dumpsEntries t

end

/-- UTF-8 bytes of one character. -/
def charUtf8 (c : Char) : List Nat :=
  let n := c.toNat
  if n < 128 then [n]
  else if n < 2048 then [192 + n / 64, 128 + n % 64]
  else if n < 65536 then [224 + n / 4096, 128 + n / 64 % 64, 128 + n % 64]
  else [240 + n / 262144, 128 + n / 4096 % 64, 128 + n / 64 % 64, 128 + n % 64]

/-- `s.encode()`: UTF-8 bytes of a string. -/
def utf8Bytes (s : String) : List Nat :=
  s.data.flatMap charUtf8

/-- The SHA-256 round constants (FIPS 180-4), written in decimal. -/
def sha256K : List Nat :=
  [1116352408, 1899447441, 3049323471, 3921009573, 961987163,
   1508970993, 2453635748, 2870763221, 3624381080, 310598401,
   607225278, 1426881987, 1925078388, 2162078206, 2614888103,
   3248222580, 3835390401, 4022224774, 264347078, 604807628,
   770255983, 1249150122, 1555081692, 1996064986, 2554220882,
   2821834349, 2952996808, 3210313671, 3336571891, 3584528711,
   113926993, 338241895, 666307205, 773529912, 1294757372,
   1396182291, 1695183700, 1986661051, 2177026350, 2456956037,
   2730485921, 2820302411, 3259730800, 3345764771, 3516065817,
   3600352804, 4094571909, 275423344, 430227734, 506948616,
   659060556, 883997877, 958139571, 1322822218, 1537002063,
   1747873779, 1955562222, 2024104815, 2227730452, 2361852424,
   2428436474, 2756734187, 3204031479, 3329325298]

/-- The SHA-256 initial hash state (FIPS 180-4), written in decimal. -/
def sha256H0 : List Nat :=
  [1779033703, 3144134277, 1013904242, 2773480762, 1359893119,
   2600822924, 528734635, 1541459225]

/-- 32-bit right rotation on `Nat`. -/
def rotr32 (n x : Nat) : Nat :=
  ((x >>> n) ||| (x <<< (32 - n))) % 4294967296

/-- Big-endian 64-bit length field. -/
def be64 (n : Nat) : List Nat :=
  [n / 2 ^ 56 % 256, n / 2 ^ 48 % 256, n / 2 ^ 40 % 256, n / 2 ^ 32 % 256,
   n / 2 ^ 24 % 256, n / 2 ^ 16 % 256, n / 2 ^ 8 % 256, n % 256]

/-- SHA-256 padding: `0x80`, zeros to 56 mod 64, then the bit length. -/
def sha256pad (msg : List Nat) : List Nat :=
  msg ++ [128] ++ List.replicate ((119 - msg.length % 64) % 64) 0
    ++ be64 (8 * msg.length)

/-- Big-endian 32-bit words from bytes. -/
def toWords : List Nat → List Nat
  | b0 :: b1 :: b2 :: b3 :: rest => (((b0 * 256 + b1) * 256 + b2) * 256 + b3) :: toWords rest
  | _ => []

/-- Message-schedule extension: append `steps` further words. -/
def extendSchedule (w : List Nat) : Nat → List Nat
  | 0 => w
  | steps + 1 =>
    let g := fun i => w.getD (w.length - i) 0
    let s0 := rotr32 7 (g 15) ^^^ rotr32 18 (g 15) ^^^ (g 15 >>> 3)
    let s1 := rotr32 17 (g 2) ^^^ rotr32 19 (g 2) ^^^ (g 2 >>> 10)
    extendSchedule (w ++ [(g 16 + s0 + g 7 + s1) % 4294967296]) steps

/-- One SHA-256 compression round. -/
def sha256Round (regs : List Nat) (kw : Nat × Nat) : List Nat :=
  match regs with
  | [a, b, c, d, e, f, g, h] =>
    let S1 := rotr32 6 e ^^^ rotr32 11 e ^^^ rotr32 25 e
    let ch := (e &&& f) ^^^ ((e ^^^ 4294967295) &&& g)
    let temp1 := (h + S1 + ch + kw.1 + kw.2) % 4294967296
    let S0 := rotr32 2 a ^^^ rotr32 13 a ^^^ rotr32 22 a
    let maj := (a &&& b) ^^^ (a &&& c) ^^^ (b &&& c)
    let temp2 := (S0 + maj) % 4294967296
    [(temp1 + temp2) % 4294967296, a, b, c, (d + temp1) % 4294967296, e, f, g]
  | other => other

/-- Compress one 64-byte chunk into the hash state. -/
def sha256Compress (h : List Nat) (chunk : List Nat) : List Nat :=
  let w := extendSchedule (toWords chunk) 48
  let final := (sha256K.zip w).foldl sha256Round h
  List.zipWith (fun x y => (x + y) % 4294967296) h final

/-- Fold all 64-byte chunks of the padded message. -/
def sha256Blocks (h : List Nat) : List Nat → List Nat
  | [] => h
  | b :: bs => sha256Blocks (sha256Compress h ((b :: bs).take 64)) ((b :: bs).drop 64)
termination_by bs => bs.length + 1
decreasing_by simp [List.drop]; omega

/-- Eight hex digits of one 32-bit word. -/
def wordHex (w : Nat) : List Char :=
  [hexDigit (w / 16 ^ 7 % 16), hexDigit (w / 16 ^ 6 % 16), hexDigit (w / 16 ^ 5 % 16),
   hexDigit (w / 16 ^ 4 % 16), hexDigit (w / 16 ^ 3 % 16), hexDigit (w / 16 ^ 2 % 16),
   hexDigit (w / 16 % 16), hexDigit (w % 16)]

/-- `hashlib.sha256(bytes).hexdigest()`. -/
def sha256Hex (bytes : List Nat) : String :=
  ⟨((sha256Blocks sha256H0 (sha256pad bytes)).map wordHex).flatten⟩

/-- `ValidationService.calculate_schema_hash(schema_content, base_url)`:
SHA-256 hex digest of the sorted-keys JSON dump concatenated with the base
URL. -/
def calculate_schema_hash (schema_content : JVal) (base_url : String) : String :=
  sha256Hex (utf8Bytes (dumps schema_content ++ base_url))

/-- No duplicate keys (what a Python dict guarantees). -/
def keysNodup : List String → Bool
  | [] => true
  | k :: t => !t.contains k && keysNodup t

mutual

/-- Well-formedness of a value coming from a Python dict / `json.loads`:
every object has pairwise-distinct keys, recursively. -/
def wfB : JVal → Bool
  | .obj kvs => keysNodup (kvs.map Prod.fst) && wfEntries kvs
  | .arr xs => wfList xs
  | _ => true

/-- Well-formedness of all entry values. -/
def wfEntries : List (String × JVal) → Bool
  | [] => true
  | (_, v) :: t => wfB v && wfEntries t

/-- Well-formedness of all list items. -/
def wfList : List JVal → Bool
  | [] => true
  | x :: t => wfB x && wfList t

end

mutual

/-- Deep equality of two Python values as maps: objects are equal when they
have the same number of entries and every key of the first maps to an
equivalent value in the second (with unique keys this is equality of finite
maps); arrays pointwise; scalars by value. -/
def jequivB : JVal → JVal → Bool
  | .obj e1, .obj e2 => e1.length == e2.length && jeEntries e1 e2
  | .arr l1, .arr l2 => jeList l1 l2
  | .null, .null => true
  | .bool a, .bool b => a == b
  | .num a, .num b => a == b
  | .str a, .str b => a == b
  | _, _ => false

/-- Every entry of the first list has an equivalent value under its key in
the second. -/
def jeEntries : List (String × JVal) → List (String × JVal) → Bool
  | [], _ => true
  | (k, v) :: t, e2 =>
    (match List.lookup k e2 with
     | some v' => jequivB v v'
     | none => false) && jeEntries t e2

/-- Pointwise equivalence of lists. -/
def jeList : List JVal → List JVal → Bool
  | [], [] => true
  | x :: t, y :: u => jequivB x y && jeList t u
  | _, _ => false

end

/-! ### Association-list lemmas for the hash theorem -/

/-- A successful lookup returns a member. -/
theorem lookup_some_mem {β : Type} :
    ∀ (l : List (String × β)) (k : String) (v : β),
      List.lookup k l = some v → (k, v) ∈ l := by
  intro l
  induction l with
  | nil => intro k v h; simp [List.lookup] at h
  | cons p es ih =>
    obtain ⟨a, b⟩ := p
    intro k v h
    simp only [List.lookup] at h
    split at h
    · next hka =>
      injection h with h
      subst h
      have : k = a := by simpa using hka
      subst this
      exact List.mem_cons_self _ _
    · exact List.mem_cons_of_mem _ (ih k v h)

/-- Lookup misses exactly the keys that are absent. -/
theorem lookup_eq_none_iff {β : Type} :
    ∀ (l : List (String × β)) (k : String),
      List.lookup k l = none ↔ k ∉ l.map Prod.fst := by
  intro l
  induction l with
  | nil => intro k; simp [List.lookup]
  | cons p es ih =>
    obtain ⟨a, b⟩ := p
    intro k
    simp only [List.lookup, List.map_cons, List.mem_cons]
    split
    · next hka =>
      have : k = a := by simpa using hka
      subst this
      simp
    · next hka =>
      have : ¬k = a := by simpa using hka
      simp [ih, this]

/-- Lookup is permutation-invariant on duplicate-free association lists. -/
theorem perm_lookup_eq {β : Type} {l1 l2 : List (String × β)} (h : l1.Perm l2)
    (hnd : (l1.map Prod.fst).Nodup) :
    ∀ k, List.lookup k l1 = List.lookup k l2 := by
  induction h with
  | nil => intro k; rfl
  | cons x h ih =>
    obtain ⟨a, b⟩ := x
    intro k
    simp only [List.lookup]
    split
    · rfl
    · exact ih (by simpa using hnd.of_cons) k
  | swap x y t =>
    obtain ⟨a, b⟩ := x
    obtain ⟨c, d⟩ := y
    intro k
    have hne : ¬c = a := by
      intro hca
      subst hca
      simp [List.map_cons, List.nodup_cons] at hnd
    simp only [List.lookup]
    rcases hka : (k == a) with _ | _ <;> rcases hkc : (k == c) with _ | _ <;>
      simp_all
  | trans h1 h2 ih1 ih2 =>
    intro k
    have hnd2 := (List.Perm.nodup_iff (h1.map Prod.fst)).mp hnd
    exact (ih1 hnd k).trans (ih2 hnd2 k)

/-- Two association lists with identical duplicate-free key sequences and
identical lookups are equal. -/
theorem assoc_ext {β : Type} :
    ∀ (l1 l2 : List (String × β)),
      l1.map Prod.fst = l2.map Prod.fst → (l1.map Prod.fst).Nodup →
      (∀ k, List.lookup k l1 = List.lookup k l2) → l1 = l2 := by
  intro l1
  induction l1 with
  | nil =>
    intro l2 hk _ _
    cases l2 with
    | nil => rfl
    | cons q t2 => simp at hk
  | cons p t1 ih =>
    intro l2 hk hnd hl
    obtain ⟨a, b⟩ := p
    cases l2 with
    | nil => simp at hk
    | cons q t2 =>
      obtain ⟨c, d⟩ := q
      simp only [List.map_cons, List.cons.injEq] at hk
      obtain ⟨hac, htk⟩ := hk
      subst hac
      have hbd : b = d := by
        have := hl a
        simp [List.lookup] at this
        exact this
      subst hbd
      have hnotmem : a ∉ t1.map Prod.fst := by
        rw [List.map_cons, List.nodup_cons] at hnd
        exact hnd.1
      have htl : ∀ k, List.lookup k t1 = List.lookup k t2 := by
        intro k
        by_cases hka : k = a
        · subst hka
          rw [(lookup_eq_none_iff t1 k).mpr hnotmem,
            (lookup_eq_none_iff t2 k).mpr (htk ▸ hnotmem)]
        · have := hl k
          have hbeq : (k == a) = false := by simpa using hka
          simp only [List.lookup, hbeq] at this
          exact this
      rw [ih t2 htk (by rw [List.map_cons, List.nodup_cons] at hnd; exact hnd.2) htl]

/-- `dumpsEntries` keeps the keys. -/
theorem map_fst_dumpsEntries :
    ∀ e : List (String × JVal), (dumpsEntries e).map Prod.fst = e.map Prod.fst := by
  intro e
  induction e with
  | nil => rfl
  | cons p t ih =>
    obtain ⟨k, v⟩ := p
    simp [dumpsEntries, ih]

/-- Looking a key up among the rendered entries renders its value. -/
theorem lookup_dumpsEntries :
    ∀ (e : List (String × JVal)) (k : String),
      List.lookup k (dumpsEntries e) =
        (List.lookup k e).map fun v => pyJsonQuote k ++ ": " ++ dumps v := by
  intro e
  induction e with
  | nil => intro k; rfl
  | cons p t ih =>
    obtain ⟨a, v⟩ := p
    intro k
    simp only [dumpsEntries, List.lookup]
    rcases hka : (k == a) with _ | _
    · simpa using ih k
    · have : k = a := by simpa using hka
      subst this
      simp

/-- `keysNodup` is `List.Nodup`. -/
theorem keysNodup_iff : ∀ ks : List String, keysNodup ks = true ↔ ks.Nodup := by
  intro ks
  induction ks with
  | nil => simp [keysNodup]
  | cons k t ih =>
    simp only [keysNodup, Bool.and_eq_true, Bool.not_eq_true', ih, List.nodup_cons]
    constructor
    · rintro ⟨h1, h2⟩
      exact ⟨by simpa using h1, h2⟩
    · rintro ⟨h1, h2⟩
      exact ⟨by simpa using h1, h2⟩

/-- `jeEntries` gives every left entry an equivalent right value. -/
theorem jeEntries_lookup :
    ∀ (e1 e2 : List (String × JVal)), jeEntries e1 e2 = true →
      ∀ k v, (k, v) ∈ e1 →
        ∃ v', List.lookup k e2 = some v' ∧ jequivB v v' = true := by
  intro e1
  induction e1 with
  | nil => intro e2 _ k v hmem; simp at hmem
  | cons p t ih =>
    obtain ⟨a, b⟩ := p
    intro e2 hje k v hmem
    simp only [jeEntries, Bool.and_eq_true] at hje
    obtain ⟨hhead, htail⟩ := hje
    rcases List.mem_cons.mp hmem with heq | hmem'
    · injection heq with h1 h2
      subst h1
      subst h2
      rcases hlk : List.lookup k e2 with _ | v'
      · rw [hlk] at hhead; simp at hhead
      · rw [hlk] at hhead
        exact ⟨v', rfl, hhead⟩
    · exact ih e2 htail k v hmem'

/-- Every value stored in a well-formed entry list is well-formed. -/
theorem wfEntries_mem :
    ∀ e : List (String × JVal), wfEntries e = true →
      ∀ k v, (k, v) ∈ e → wfB v = true := by
  intro e
  induction e with
  | nil => intro _ k v hmem; simp at hmem
  | cons p t ih =>
    obtain ⟨a, b⟩ := p
    intro hwf k v hmem
    simp only [wfEntries, Bool.and_eq_true] at hwf
    rcases List.mem_cons.mp hmem with heq | hmem'
    · injection heq with h1 h2
      subst h2
      exact hwf.1
    · exact ih hwf.2 k v hmem'

/-- Every item of a well-formed list is well-formed. -/
theorem wfList_mem :
    ∀ l : List JVal, wfList l = true → ∀ x ∈ l, wfB x = true := by
  intro l
  induction l with
  | nil => intro _ x hmem; simp at hmem
  | cons y t ih =>
    intro hwf x hmem
    simp only [wfList, Bool.and_eq_true] at hwf
    rcases List.mem_cons.mp hmem with heq | hmem'
    · subst heq; exact hwf.1
    · exact ih hwf.2 x hmem'

/-- The keys of the first object all occur in the second. -/
theorem jeEntries_keys_subset (e1 e2 : List (String × JVal))
    (hje : jeEntries e1 e2 = true) :
    e1.map Prod.fst ⊆ e2.map Prod.fst := by
  intro k hk
  obtain ⟨v, hv⟩ := by
    simpa [List.mem_map, Prod.exists] using hk
  obtain ⟨v', hl, _⟩ := jeEntries_lookup e1 e2 hje k v hv
  have := lookup_some_mem e2 k v' hl
  exact List.mem_map.mpr ⟨(k, v'), this, rfl⟩

/-- The sort in `dumps` produces a key-sorted pair list. -/
theorem mergeSort_keyLe_sorted (l : List (String × String)) :
    (l.mergeSort keyLe).Pairwise fun a b => a.1 ≤ b.1 := by
  have h := @List.sorted_mergeSort (String × String) keyLe
    (fun a b c hab hbc => by
      simp only [keyLe, decide_eq_true_eq] at *
      exact le_trans hab hbc)
    (fun a b => by
      simp only [keyLe, Bool.or_eq_true, decide_eq_true_eq]
      exact le_total a.1 b.1)
    l
  exact h.imp fun hab => by simpa [keyLe] using hab

/-- Values stored under keys of an object are smaller than the object. -/
theorem sizeOf_val_lt (e : List (String × JVal)) (k : String) (v : JVal)
    (hmem : (k, v) ∈ e) : sizeOf v < sizeOf (JVal.obj e) := by
  have h1 := List.sizeOf_lt_of_mem hmem
  have h2 : sizeOf (k, v) = 1 + sizeOf k + sizeOf v := by simp
  simp only [JVal.obj.sizeOf_spec]
  omega

/-- Items of an array are smaller than the array. -/
theorem sizeOf_item_lt (l : List JVal) (x : JVal) (hmem : x ∈ l) :
    sizeOf x < sizeOf (JVal.arr l) := by
  have h1 := List.sizeOf_lt_of_mem hmem
  simp only [JVal.arr.sizeOf_spec]
  omega

/-- Pointwise serialization equality for arrays, with the element property
supplied by the caller. -/
theorem dumpsList_congr :
    ∀ (l1 l2 : List JVal),
      (∀ x ∈ l1, ∀ y, wfB x = true → wfB y = true → jequivB x y = true →
        dumps x = dumps y) →
      wfList l1 = true → wfList l2 = true → jeList l1 l2 = true →
      dumpsList l1 = dumpsList l2 := by
  intro l1
  induction l1 with
  | nil =>
    intro l2 _ _ _ hje
    cases l2 with
    | nil => rfl
    | cons y u => simp [jeList] at hje
  | cons x t ih =>
    intro l2 hP hw1 hw2 hje
    cases l2 with
    | nil => simp [jeList] at hje
    | cons y u =>
      simp only [jeList, Bool.and_eq_true] at hje
      simp only [wfList, Bool.and_eq_true] at hw1 hw2
      simp only [dumpsList]
      rw [hP x (List.mem_cons_self _ _) y hw1.1 hw2.1 hje.1,
        ih u (fun z hz => hP z (List.mem_cons_of_mem _ hz)) hw1.2 hw2.2 hje.2]

/-- The sorted rendered entry lists of two objects that are equal as maps are
identical, with the value property supplied by the caller. -/
theorem dumpsObj_congr (e1 e2 : List (String × JVal))
    (hP : ∀ k v, (k, v) ∈ e1 → ∀ y, wfB v = true → wfB y = true →
      jequivB v y = true → dumps v = dumps y)
    (hnd1 : keysNodup (e1.map Prod.fst) = true) (hw1 : wfEntries e1 = true)
    (hnd2 : keysNodup (e2.map Prod.fst) = true) (hw2 : wfEntries e2 = true)
    (hlen : (e1.length == e2.length) = true) (hje : jeEntries e1 e2 = true) :
    (dumpsEntries e1).mergeSort keyLe = (dumpsEntries e2).mergeSort keyLe := by
  have nodup1 : (e1.map Prod.fst).Nodup := (keysNodup_iff _).mp hnd1
  have hlen' : e1.length = e2.length := by simpa using hlen
  have hkeysperm : (e1.map Prod.fst).Perm (e2.map Prod.fst) :=
    (List.Nodup.subperm nodup1 (jeEntries_keys_subset e1 e2 hje)).perm_of_length_le
      (by simp [hlen'])
  have hperm1 : ((dumpsEntries e1).mergeSort keyLe).Perm (dumpsEntries e1) :=
    List.mergeSort_perm _ _
  have hperm2 : ((dumpsEntries e2).mergeSort keyLe).Perm (dumpsEntries e2) :=
    List.mergeSort_perm _ _
  have hkeys1 :
      (((dumpsEntries e1).mergeSort keyLe).map Prod.fst).Perm (e1.map Prod.fst) := by
    rw [← map_fst_dumpsEntries e1]
    exact hperm1.map Prod.fst
  have hkeys2 :
      (((dumpsEntries e2).mergeSort keyLe).map Prod.fst).Perm (e2.map Prod.fst) := by
    rw [← map_fst_dumpsEntries e2]
    exact hperm2.map Prod.fst
  have hsorted1 : (((dumpsEntries e1).mergeSort keyLe).map Prod.fst).Sorted (· ≤ ·) :=
    List.pairwise_map.mpr (mergeSort_keyLe_sorted (dumpsEntries e1))
  have hsorted2 : (((dumpsEntries e2).mergeSort keyLe).map Prod.fst).Sorted (· ≤ ·) :=
    List.pairwise_map.mpr (mergeSort_keyLe_sorted (dumpsEntries e2))
  have hkeyseq :
      ((dumpsEntries e1).mergeSort keyLe).map Prod.fst =
        ((dumpsEntries e2).mergeSort keyLe).map Prod.fst :=
    List.eq_of_perm_of_sorted
      ((hkeys1.trans hkeysperm).trans hkeys2.symm) hsorted1 hsorted2
  have hndms1 : (((dumpsEntries e1).mergeSort keyLe).map Prod.fst).Nodup :=
    (List.Perm.nodup_iff hkeys1).mpr nodup1
  have hndms2 : (((dumpsEntries e2).mergeSort keyLe).map Prod.fst).Nodup := by
    rw [← hkeyseq] at *
    exact hndms1
  have hlk : ∀ k, List.lookup k ((dumpsEntries e1).mergeSort keyLe) =
      List.lookup k ((dumpsEntries e2).mergeSort keyLe) := by
    intro k
    rw [perm_lookup_eq hperm1 hndms1 k, perm_lookup_eq hperm2 hndms2 k,
      lookup_dumpsEntries, lookup_dumpsEntries]
    rcases hl1 : List.lookup k e1 with _ | v
    · have hnm : k ∉ e2.map Prod.fst := by
        rw [← hkeysperm.mem_iff]
        exact (lookup_eq_none_iff e1 k).mp hl1
      rw [(lookup_eq_none_iff e2 k).mpr hnm]
    · have hmem1 := lookup_some_mem e1 k v hl1
      obtain ⟨v', hl2, hjev⟩ := jeEntries_lookup e1 e2 hje k v hmem1
      rw [hl2]
      have hwv : wfB v = true := wfEntries_mem e1 hw1 k v hmem1
      have hwv' : wfB v' = true :=
        wfEntries_mem e2 hw2 k v' (lookup_some_mem e2 k v' hl2)
      simp only [Option.map_some']
      rw [hP k v hmem1 v' hwv hwv' hjev]
  exact assoc_ext _ _ hkeyseq hndms1 hlk

/-- `dumps` depends only on the map semantics of well-formed values: deep
key-order-insensitive equality implies identical serializations.  Proved by
strong induction on size. -/
theorem dumps_eq_of_jequiv_aux :
    ∀ n : Nat, ∀ j1 j2 : JVal, sizeOf j1 ≤ n →
      wfB j1 = true → wfB j2 = true → jequivB j1 j2 = true →
      dumps j1 = dumps j2 := by
  intro n
  induction n with
  | zero =>
    intro j1 j2 hsz
    exact absurd hsz (by simpa using (jval_sizeOf_pos j1).ne')
  | succ n ih =>
    intro j1 j2 hsz hw1 hw2 hje
    cases j1 with
    | null => cases j2 <;> simp_all [jequivB]
    | bool b => cases j2 <;> simp_all [jequivB]
    | num m => cases j2 <;> simp_all [jequivB]
    | str s => cases j2 <;> simp_all [jequivB]
    | arr l1 =>
      cases j2 with
      | arr l2 =>
        simp only [jequivB] at hje
        simp only [wfB] at hw1 hw2
        simp only [dumps]
        rw [dumpsList_congr l1 l2
          (fun x hx y hwx hwy hjexy => ih x y
            (by
              have hlt := sizeOf_item_lt l1 x hx
              simp only [JVal.arr.sizeOf_spec] at hsz hlt
              omega)
            hwx hwy hjexy)
          hw1 hw2 hje]
      | null => simp [jequivB] at hje
      | bool b => simp [jequivB] at hje
      | num m => simp [jequivB] at hje
      | str s => simp [jequivB] at hje
      | obj e => simp [jequivB] at hje
    | obj e1 =>
      cases j2 with
      | obj e2 =>
        simp only [jequivB, Bool.and_eq_true] at hje
        simp only [wfB, Bool.and_eq_true] at hw1 hw2
        simp only [dumps]
        rw [dumpsObj_congr e1 e2
          (fun k v hv y hwv hwy hjevy => ih v y
            (by
              have hlt := sizeOf_val_lt e1 k v hv
              simp only [JVal.obj.sizeOf_spec] at hsz hlt
              omega)
            hwv hwy hjevy)
          hw1.1 hw1.2 hw2.1 hw2.2 hje.1 hje.2]
      | null => simp [jequivB] at hje
      | bool b => simp [jequivB] at hje
      | num m => simp [jequivB] at hje
      | str s => simp [jequivB] at hje
      | arr l => simp [jequivB] at hje

/-! ## Claim C10 — the schema hash is deterministic and key-order independent -/

/-- C10: `calculate_schema_hash` is key-order independent — two well-formed
schema values that are equal as maps (same keys and values at every nesting
level, regardless of key insertion order) produce the identical SHA-256 hex
digest for the same base URL — and deterministic (repeated application to the
same input is the same digest, definitionally in this pure embedding).  So the
caching boundary's identical-hash-implies-reuse behavior cannot be defeated by
reordering keys in the uploaded schema. -/
theorem c10_schema_hash_canonical (s1 s2 : JVal) (base_url : String)
    (hw1 : wfB s1 = true) (hw2 : wfB s2 = true) (heq : jequivB s1 s2 = true) :
    calculate_schema_hash s1 base_url = calculate_schema_hash s2 base_url ∧
    calculate_schema_hash s1 base_url = calculate_schema_hash s1 base_url := by
  refine ⟨?_, rfl⟩
  unfold calculate_schema_hash
  rw [dumps_eq_of_jequiv_aux (sizeOf s1) s1 s2 le_rfl hw1 hw2 heq]

/-- A schema with nested keys in one order. -/
def schemaOrderA : JVal :=
  .obj [("b", .num 1), ("a", .obj [("y", .str "v"), ("x", .null)])]

/-- The same schema as a map, with keys inserted in the other order at both
nesting levels. -/
def schemaOrderB : JVal :=
  .obj [("a", .obj [("x", .null), ("y", .str "v")]), ("b", .num 1)]

/-- Witness for C10 at a concrete reordered pair of schemas. -/
theorem c10_schema_hash_canonical_witness :
    wfB schemaOrderA = true ∧ wfB schemaOrderB = true ∧
    jequivB schemaOrderA schemaOrderB = true ∧
    calculate_schema_hash schemaOrderA "http://api.example.com" =
      calculate_schema_hash schemaOrderB "http://api.example.com" :=
  ⟨rfl, rfl, rfl,
   (c10_schema_hash_canonical schemaOrderA schemaOrderB "http://api.example.com"
     rfl rfl rfl).1⟩
